import Mathlib

/-!
Shallow embedding of the `rl-approaches` simulation core
(src/src/math.rs and src/src/simple1.rs).

Modelling conventions:
* `f32` values (coordinates, health, strengths) are embedded as `ℚ`; every
  arithmetic operation appearing in the verified claims (addition,
  subtraction, multiplication of small dyadic constants) is exact, and every
  comparison settled below is far from a rounding tie, so the rational model
  agrees with the `f32` computation on all inputs used.
* `sqrt` has no exact rational counterpart, so `Vec2.length` and
  `Vec2.distance` take the square-root function as an explicit argument,
  and strict comparisons `distance < d` inside the game are embedded by
  squaring both sides (`distLt`), which is equivalent because every `d` used
  is nonnegative and the square root is strictly monotone on nonnegatives.
* `todo!()` branches and panicking indexing are embedded as `Option`, with
  `none` for the aborting outcome.
-/

namespace RL

/-- `Vec2 { x: f32, y: f32 }` from math.rs. -/
structure Vec2 where
  x : ℚ
  y : ℚ
deriving DecidableEq

/-- Component-wise subtraction, `impl Sub for Vec2` in math.rs. -/
def Vec2.sub (a b : Vec2) : Vec2 :=
  { x := a.x - b.x, y := a.y - b.y }

/-- The radicand of `Vec2::length`: `self.x * self.x + self.y * self.y`. -/
def Vec2.lengthSq (v : Vec2) : ℚ :=
  v.x * v.x + v.y * v.y

/-- `Vec2::length`: `(x*x + y*y).sqrt()`. The square root is passed
explicitly since it is not exactly representable over `ℚ`. -/
def Vec2.length (sqrt : ℚ → ℚ) (v : Vec2) : ℚ :=
  sqrt v.lengthSq

/-- `Vec2::distance`: `(self - v1).length()`. -/
def Vec2.distance (sqrt : ℚ → ℚ) (a b : Vec2) : ℚ :=
  (a.sub b).length sqrt

/-- `vec2(x, y)` constructor from math.rs. -/
def vec2 (x y : ℚ) : Vec2 :=
  { x := x, y := y }

/-- The comparison `a.distance(b) < d` from simple1.rs, embedded by squaring
both sides: `distance = sqrt (lengthSq (a - b))`, every `d` at a use site is
nonnegative, `lengthSq` is nonnegative, and the square root is strictly
monotone on nonnegatives, so the comparison is equivalent to
`lengthSq (a - b) < d * d` and stays decidable over `ℚ`. -/
def distLt (a b : Vec2) (d : ℚ) : Bool :=
  decide ((a.sub b).lengthSq < d * d)

/-- `enum MapClass` from simple1.rs. -/
inductive MapClass where
  | None
  | Water
  | Floor
  | Wall
  | ClosedDoor
  | OpenDoor
deriving DecidableEq

/-- `struct Map { size: usize, map: Vec<MapClass> }`. -/
structure Map where
  size : Nat
  map : List MapClass
deriving DecidableEq

/-- `Map::new`: `Vec::with_capacity(size * size)` allocates an EMPTY vector
(length 0) whose reserved capacity is `size * size`; the list model keeps
the length-0 content, capacity being non-semantic. -/
def Map.new (size : Nat) : Map :=
  { size := size, map := [] }

/-- Modelled from the spec: `Map::class_at` is `todo!()` in simple1.rs. Spec
(section 4.2): project the continuous position to a cell by flooring each
coordinate; return absent when the cell lies outside `[0,size) × [0,size)`;
otherwise the stored classification (row-major `y * size + x`; absent when
nothing is stored at that cell). -/
def Map.class_at (m : Map) (pos : Vec2) : Option MapClass :=
  let fx := ⌊pos.x⌋
  let fy := ⌊pos.y⌋
  if 0 ≤ fx ∧ fx < (m.size : ℤ) ∧ 0 ≤ fy ∧ fy < (m.size : ℤ) then
    m.map.get? (fy.toNat * m.size + fx.toNat)
  else
    none

/-- `Map::validate_move`: `Wall`, `ClosedDoor` and `MapClass::None` deny the
move; any other stored classification allows it; an absent classification
(the `else` branch of the `if let`) allows it. -/
def Map.validate_move (m : Map) (pos : Vec2) : Bool :=
  match m.class_at pos with
  | some c =>
    match c with
    | MapClass.Wall => false
    | MapClass.ClosedDoor => false
    | MapClass.None => false
    | _ => true
  | Option.none => true

/-- `enum EntityClass` from simple1.rs; the `PlayerData` / `MonsterData` /
`ItemData` payloads are empty structs and carry no information. -/
inductive EntityClass where
  | Player
  | Monster
  | Item
deriving DecidableEq

/-- `struct Entity { pos: Vec2, health: f32, class: EntityClass }`; the
field `class` is a Lean keyword, rendered `cls`. -/
structure Entity where
  pos : Vec2
  health : ℚ
  cls : EntityClass
deriving DecidableEq

/-- `enum SideEffect` from simple1.rs; `EntityId` is `usize`, a snapshot
index, embedded as `Nat`. -/
inductive SideEffect where
  | Attack (entity0 : Nat) (entity1 : Nat) (strength : ℚ)
  | MapAttack (entity0 : Nat) (map_pos : Vec2) (strength : ℚ)
deriving DecidableEq

/-- Whether a side effect is dispatched to the `Attack` arm of
`Game::apply_side_effect` (rather than the unimplemented `MapAttack` arm). -/
def SideEffect.isAttack : SideEffect → Bool
  | SideEffect.Attack _ _ _ => true
  | SideEffect.MapAttack _ _ _ => false

/-- `ATTACK_DISTANCE` constant of the Player arm of `Entity::update`. -/
def ATTACK_DISTANCE : ℚ := 2

/-- `MY_ATTACK_STRENGTH` constant of the Player arm of `Entity::update`
(`0.25`, exact in `f32` and in `ℚ`). -/
def MY_ATTACK_STRENGTH : ℚ := 1 / 4

/-- `Entity::update`: dispatch on the class. The Player arm proposes the
move `(pos.x + 0.1, pos.y)`, adopts it when `map.validate_move` allows,
then walks the snapshot with `enumerate`, filters out its own index, and
pushes one `Attack` per remaining entity whose distance from the (possibly
moved) position is below `ATTACK_DISTANCE`. `Monster` and `Item` are
`todo!()`, embedded as `none`. Returns the mutated entity (`&mut self`)
together with the emitted side effects. -/
def Entity.update (self : Entity) (my_id : Nat) (entities : List Entity)
    (map : Map) : Option (Entity × List SideEffect) :=
  match self.cls with
  | EntityClass.Player =>
    let new_pos := vec2 (self.pos.x + 1 / 10) self.pos.y
    let pos1 := if map.validate_move new_pos then new_pos else self.pos
    let side_effects :=
      ((entities.enum.filter (fun p => p.1 ≠ my_id)).foldl
        (fun acc p =>
          if distLt pos1 p.2.pos ATTACK_DISTANCE then
            acc ++ [SideEffect.Attack my_id p.1 MY_ATTACK_STRENGTH]
          else acc) [])
    some ({ self with pos := pos1 }, side_effects)
  | EntityClass.Monster => none
  | EntityClass.Item => none

/-- `struct Game { map: Map, entities: Vec<Entity> }`. -/
structure Game where
  map : Map
  entities : List Entity
deriving DecidableEq

/-- `Game::new`: a 1024-sized map and an empty entity collection. -/
def Game.new : Game :=
  { map := Map.new 1024, entities := [] }

/-- `Game::apply_side_effect`: `Attack` subtracts `strength` from
`entities[entity1].health` (a panicking index, `none` when out of bounds);
the `MapAttack` arm is `todo!()`, embedded as `none`. -/
def Game.apply_side_effect (g : Game) (effect : SideEffect) : Option Game :=
  match effect with
  | SideEffect.Attack _ entity1 strength =>
    match g.entities.get? entity1 with
    | some e =>
      some { g with entities := g.entities.set entity1 { e with health := e.health - strength } }
    | Option.none => none
  | SideEffect.MapAttack _ _ _ => none

/-- The decide phase of `Game::update`
(`self.entities.iter_mut().enumerate().map(|(i, e)| e.update(i, &entities0, &self.map)).collect()`):
walk the live entity vector in ascending index order starting at index `i`;
each step rewrites entity `i` in place with the entity returned by its
update (the `iter_mut` mutation) and records its side-effect list; every
update reads the fixed tick-start snapshot `entities0` (and its own live
entry, which `iter_mut` makes exclusively its own). `none` as soon as one
update hits a `todo!()` arm. -/
def updateEntities (map : Map) (entities0 : List Entity) :
    Nat → List Entity → Option (List Entity × List (List SideEffect))
  | _, [] => some ([], [])
  | i, e :: rest =>
    match e.update i entities0 map with
    | Option.none => none
    | some (e1, effs) =>
      match updateEntities map entities0 (i + 1) rest with
      | Option.none => none
      | some (rest1, effss) => some (e1 :: rest1, effs :: effss)

/-- The inner loop of the apply phase: feed one emitted list to
`apply_side_effect`, left to right, threading the game state. -/
def Game.applyList (g : Game) : List SideEffect → Option Game
  | [] => some g
  | eff :: rest =>
    match g.apply_side_effect eff with
    | Option.none => none
    | some g1 => g1.applyList rest

/-- The outer loop of the apply phase
(`side_effects.iter().for_each(|eff| eff.iter().for_each(...))`): apply the
per-entity side-effect lists in decision order. -/
def Game.applyAll (g : Game) : List (List SideEffect) → Option Game
  | [] => some g
  | effs :: rest =>
    match g.applyList effs with
    | Option.none => none
    | some g1 => g1.applyAll rest

/-- The reap step of `Game::update`:
`self.entities.retain(|e| e.health <= 0.0)` — `retain` KEEPS exactly the
entities satisfying the predicate, so this keeps the entities with
`health ≤ 0` and removes the rest. -/
def reapStep (es : List Entity) : List Entity :=
  es.filter (fun e => decide (e.health ≤ 0))

/-- `Game::update`: clone the snapshot, run the decide phase, apply all
collected side effects in emission order, reap, and report whether more
than one entity remains. `none` when a `todo!()` arm is reached. -/
def Game.update (g : Game) : Option (Game × Bool) :=
  let entities0 := g.entities
  match updateEntities g.map entities0 0 g.entities with
  | Option.none => none
  | some (es, side_effects) =>
    match Game.applyAll { g with entities := es } side_effects with
    | Option.none => none
    | some g2 =>
      let g3 : Game := { g2 with entities := reapStep g2.entities }
      some (g3, decide (g3.entities.length > 1))

/-- The `run` loop `while game.update() {}`, fuel-indexed to stay total:
`none` when the fuel runs out before the loop stops or when an update
aborts in a `todo!()` arm; `some` with the final game state otherwise. -/
def runLoop : Nat → Game → Option Game
  | 0, _ => none
  | fuel + 1, g =>
    match g.update with
    | Option.none => none
    | some (g1, true) => runLoop fuel g1
    | some (g1, false) => some g1

/-- `pub fn run()`: start from `Game::new` and loop until `update` returns
false. -/
def run (fuel : Nat) : Option Game :=
  runLoop fuel Game.new

/-- Sequencing of a list of optional results: `some` of the list of values
when every element is `some`, `none` otherwise. -/
def sequenceOption {α : Type} : List (Option α) → Option (List α)
  | [] => some []
  | o :: rest =>
    match o with
    | Option.none => none
    | some a =>
      match sequenceOption rest with
      | Option.none => none
      | some l => some (a :: l)

/-- The decisions of the decide phase described from the tick-start data
alone: entity `j` of the walked list is sent to `Entity.update` with its own
pre-phase value, its index, the fixed snapshot `entities0` and the map —
no value produced by another entity's decision appears. -/
def decisionsFrom (map : Map) (entities0 : List Entity) :
    Nat → List Entity → List (Option (Entity × List SideEffect))
  | _, [] => []
  | i, e :: rest => e.update i entities0 map :: decisionsFrom map entities0 (i + 1) rest

/-- The specification's description of a Player's emitted attacks: one
`Attack` with the player's own id as source and strength `0.25` per other
snapshot entity (self excluded) within `ATTACK_DISTANCE` of the post-move
position, in ascending snapshot-index order. -/
def playerAttacksSpec (my_id : Nat) (pos : Vec2) (entities0 : List Entity) :
    List SideEffect :=
  entities0.enum.filterMap (fun p =>
    if p.1 ≠ my_id ∧ distLt pos p.2.pos ATTACK_DISTANCE then
      some (SideEffect.Attack my_id p.1 MY_ATTACK_STRENGTH)
    else none)

/-- A 6 × 6 map whose cell `(5,5)` (row-major index `5 * 6 + 5 = 35`) is a
`Wall` and whose other cells are `Floor`: the destination cell of a Player
standing at `(5,5)` (its proposed move lands at `(5.1, 5)`, still cell
`(5,5)`) is a `Wall`. -/
def wallMap : Map :=
  { size := 6, map := List.replicate 35 MapClass.Floor ++ [MapClass.Wall] }

/-- The two-Player scenario of the spec: players at `(0,0)` and `(1,0)`,
both with health `1.0`, on a fresh `Map::new(1024)` map (every
classification query is absent there, so every move is allowed). -/
def twoPlayerGame : Game :=
  { map := Map.new 1024,
    entities := [ { pos := vec2 0 0, health := 1, cls := EntityClass.Player },
                  { pos := vec2 1 0, health := 1, cls := EntityClass.Player } ] }

/-- The entity vector after the decide phase of the scenario's first tick:
both players moved `0.1` in `x`. -/
def twoPlayerPostMove : List Entity :=
  [ { pos := vec2 (1 / 10) 0, health := 1, cls := EntityClass.Player },
    { pos := vec2 (11 / 10) 0, health := 1, cls := EntityClass.Player } ]

/-- The side effects of the scenario's first tick: each player attacks the
other once with strength `0.25`. -/
def twoPlayerEffects : List (List SideEffect) :=
  [ [SideEffect.Attack 0 1 (1 / 4)], [SideEffect.Attack 1 0 (1 / 4)] ]

/-- The game after the apply phase of the scenario's first tick: both
healths are `0.75`. -/
def twoPlayerPostApply : Game :=
  { map := Map.new 1024,
    entities := [ { pos := vec2 (1 / 10) 0, health := 3 / 4, cls := EntityClass.Player },
                  { pos := vec2 (11 / 10) 0, health := 3 / 4, cls := EntityClass.Player } ] }

/-- A map whose cell container is empty answers every classification query
with `none`: even an in-bounds cell index finds nothing stored. -/
theorem class_at_empty (m : Map) (h : m.map = []) (pos : Vec2) :
    m.class_at pos = none := by
  simp only [Map.class_at, h]
  split
  · exact List.get?_nil
  · rfl

/-- On a map with an empty cell container every move is allowed (the
`else` branch of `validate_move` returns `true`). -/
theorem validate_move_empty (m : Map) (h : m.map = []) (pos : Vec2) :
    m.validate_move pos = true := by
  unfold Map.validate_move
  rw [class_at_empty m h pos]

/-- First tick, entity 0 of the scenario: moves to `(0.1, 0)` and emits one
attack against entity 1 (distance `0.9 < 2`). -/
theorem two_player_entity0_update :
    Entity.update { pos := vec2 0 0, health := 1, cls := EntityClass.Player } 0
      twoPlayerGame.entities (Map.new 1024)
      = some ({ pos := vec2 (1 / 10) 0, health := 1, cls := EntityClass.Player },
              [SideEffect.Attack 0 1 MY_ATTACK_STRENGTH]) := by
  simp only [Entity.update, twoPlayerGame, validate_move_empty (Map.new 1024) rfl, if_true,
    List.enum, List.enumFrom, List.filter, List.foldl]
  norm_num [vec2, distLt, Vec2.sub, Vec2.lengthSq, ATTACK_DISTANCE, MY_ATTACK_STRENGTH,
    decide_eq_true_eq]

/-- First tick, entity 1 of the scenario: moves to `(1.1, 0)` and emits one
attack against entity 0 (distance `1.1 < 2` against the snapshot). -/
theorem two_player_entity1_update :
    Entity.update { pos := vec2 1 0, health := 1, cls := EntityClass.Player } 1
      twoPlayerGame.entities (Map.new 1024)
      = some ({ pos := vec2 (11 / 10) 0, health := 1, cls := EntityClass.Player },
              [SideEffect.Attack 1 0 MY_ATTACK_STRENGTH]) := by
  simp only [Entity.update, twoPlayerGame, validate_move_empty (Map.new 1024) rfl, if_true,
    List.enum, List.enumFrom, List.filter, List.foldl]
  norm_num [vec2, distLt, Vec2.sub, Vec2.lengthSq, ATTACK_DISTANCE, MY_ATTACK_STRENGTH,
    decide_eq_true_eq]

/-- The decide phase of the scenario's first tick. -/
theorem two_player_decide :
    updateEntities twoPlayerGame.map twoPlayerGame.entities 0 twoPlayerGame.entities
      = some (twoPlayerPostMove, twoPlayerEffects) := by
  have h0 := two_player_entity0_update
  have h1 := two_player_entity1_update
  simp only [twoPlayerGame] at h0 h1 ⊢
  simp only [updateEntities, h0, h1, twoPlayerPostMove, twoPlayerEffects, MY_ATTACK_STRENGTH]

/-- The apply phase of the scenario's first tick: both healths drop from
`1` to `0.75`. -/
theorem two_player_apply :
    Game.applyAll { map := Map.new 1024, entities := twoPlayerPostMove } twoPlayerEffects
      = some twoPlayerPostApply := by
  simp only [Game.applyAll, Game.applyList, Game.apply_side_effect, twoPlayerPostMove,
    twoPlayerEffects, twoPlayerPostApply, List.get?, List.set]
  norm_num [MY_ATTACK_STRENGTH]

/-- The scenario's first full tick: the reap step removes BOTH entities
(their healths, `0.75`, do not satisfy `health ≤ 0`, and `retain` keeps
only the entities satisfying the predicate), so `update` reports stop. -/
theorem two_player_update :
    Game.update twoPlayerGame = some ({ map := Map.new 1024, entities := [] }, false) := by
  have h1 := two_player_decide
  have h2 := two_player_apply
  simp only [twoPlayerGame] at h1 ⊢
  simp only [Game.update, h1, h2]
  norm_num [reapStep, twoPlayerPostApply, List.filter]

/-- Claim C1 evidence, at the failing input of two entities with health `0`
and health `0.000001`: the reap step
(`self.entities.retain(|e| e.health <= 0.0)`) KEEPS the entity whose health
is exactly `0` and REMOVES the entity whose health is `0.000001` — the
exact opposite of the claim (`retain` keeps the elements satisfying the
predicate, so the living are dropped and the dead are kept). -/
theorem reap_keeps_dead_removes_living :
    reapStep [ { pos := vec2 0 0, health := 0, cls := EntityClass.Player },
               { pos := vec2 0 0, health := 1 / 1000000, cls := EntityClass.Player } ]
      = [ { pos := vec2 0 0, health := 0, cls := EntityClass.Player } ] := by
  simp only [reapStep, List.filter]
  norm_num

/-- Claim C4 evidence: in the two-Player scenario the first tick's decide
phase emits exactly one mutual attack pair and the apply phase brings both
healths to `0.75` — but then the inverted reap (`retain` keeps `health ≤ 0`)
removes BOTH entities in tick 1, so `update` returns `false` and the run
loop stops after a single tick with 0 survivors; the claimed four ticks of
decay never happen. -/
theorem two_player_scenario_collapses_in_tick_one :
    updateEntities twoPlayerGame.map twoPlayerGame.entities 0 twoPlayerGame.entities
      = some (twoPlayerPostMove, twoPlayerEffects) ∧
    Game.applyAll { map := Map.new 1024, entities := twoPlayerPostMove } twoPlayerEffects
      = some twoPlayerPostApply ∧
    Game.update twoPlayerGame = some ({ map := Map.new 1024, entities := [] }, false) ∧
    ∀ n, runLoop (n + 1) twoPlayerGame = some { map := Map.new 1024, entities := [] } := by
  refine ⟨two_player_decide, two_player_apply, two_player_update, ?_⟩
  intro n
  unfold runLoop
  rw [two_player_update]

/-- Claim C3 evidence: `Map::new 2` yields a cell container of length 0, not
`2 * 2 = 4`, because `Vec::with_capacity` only reserves capacity and pushes
no elements; no cell is ever initialized. -/
theorem map_new_holds_no_cells : (Map.new 2).map.length = 0 ∧ 2 * 2 = 4 := by
  constructor
  · rfl
  · rfl

/-- Claim C2 counterexample: at position `(-1, -1)` the classification query
on `Map.new 4` yields no value, yet `validate_move` returns `true`, refuting
the claim that every position with an absent classification is rejected. -/
theorem validate_move_accepts_out_of_grid :
    (Map.new 4).class_at (vec2 (-1) (-1)) = Option.none ∧
    (Map.new 4).validate_move (vec2 (-1) (-1)) = true := by
  constructor
  · decide
  · decide

/-- Claim C2 (amended): `validate_move` returns `true` exactly when the
classification query yields no value (out of grid or unstored cell) or
yields one of `Water`, `Floor`, `OpenDoor`; it returns `false` exactly on a
stored `Wall`, `ClosedDoor` or `None` classification. -/
theorem validate_move_characterization (m : Map) (p : Vec2) :
    m.validate_move p = true ↔
      (m.class_at p = Option.none ∨ m.class_at p = some MapClass.Water ∨
       m.class_at p = some MapClass.Floor ∨ m.class_at p = some MapClass.OpenDoor) := by
  unfold Map.validate_move
  cases h : m.class_at p with
  | none => simp
  | some c => cases c <;> simp

/-- The destination cell of the movement scenario: position `(5.1, 5)`
falls in cell `(5, 5)` of `wallMap`, whose stored classification is
`Wall`. -/
theorem wallMap_dest_cell : wallMap.class_at (vec2 (51 / 10) 5) = some MapClass.Wall := by
  unfold wallMap Map.class_at vec2
  have hx : ⌊(51 / 10 : ℚ)⌋ = 5 := by
    rw [Int.floor_eq_iff]
    norm_num
  have hy : ⌊(5 : ℚ)⌋ = 5 := by norm_num
  simp only [hx, hy]
  norm_num
  rfl

/-- Claim C6: a Player's decision adopts the proposed destination
`(pos.x + 0.1, pos.y)` exactly when `validate_move` accepts it, and keeps
its current position otherwise; in particular a Player at `(5, 5)` whose
destination cell holds a `Wall` stays at `(5, 5)` and (being alone) emits
no side effects. -/
theorem player_move_iff_validate :
    (∀ (self : Entity) (my_id : Nat) (entities0 : List Entity) (map : Map),
      self.cls = EntityClass.Player →
      Option.map (fun r => r.1.pos) (Entity.update self my_id entities0 map)
        = some (if map.validate_move (vec2 (self.pos.x + 1 / 10) self.pos.y) then
                  vec2 (self.pos.x + 1 / 10) self.pos.y
                else self.pos)) ∧
    wallMap.class_at (vec2 (51 / 10) 5) = some MapClass.Wall ∧
    Entity.update { pos := vec2 5 5, health := 1, cls := EntityClass.Player } 0 [] wallMap
      = some ({ pos := vec2 5 5, health := 1, cls := EntityClass.Player }, []) := by
  have hv : wallMap.validate_move (vec2 (5 + 1 / 10) 5) = false := by
    have he : vec2 (5 + 1 / 10) 5 = vec2 (51 / 10) 5 := by norm_num [vec2]
    unfold Map.validate_move
    rw [he, wallMap_dest_cell]
  refine ⟨?_, wallMap_dest_cell, ?_⟩
  · intro self my_id entities0 map h
    obtain ⟨p, hp, c⟩ := self
    dsimp only at h
    subst h
    rfl
  · simp only [Entity.update, List.enum, List.enumFrom, List.filter, List.foldl]
    simp only [vec2] at hv ⊢
    simp only [hv, Bool.false_eq_true, if_false]

/-- Witness for C6 at the movement scenario: the Player at `(5, 5)` whose
destination cell is a `Wall` keeps position `(5, 5)` (the `validate_move`
rejection selects the else branch). -/
theorem player_move_iff_validate_witness :
    Option.map (fun r => r.1.pos)
        (Entity.update { pos := vec2 5 5, health := 1, cls := EntityClass.Player } 0 [] wallMap)
      = some (if wallMap.validate_move (vec2 (5 + 1 / 10) 5) then vec2 (5 + 1 / 10) 5
              else vec2 5 5) :=
  player_move_iff_validate.1 { pos := vec2 5 5, health := 1, cls := EntityClass.Player } 0 []
    wallMap rfl

/-- Claim C10: on a game with no entities, the decide phase produces no
decisions and no side effects, `update` leaves the game (map and entity
collection) unchanged and returns `false`; since `Game::new` starts with no
entities, the `run` loop terminates after exactly one call to `update`,
whatever fuel beyond that first call it is given. -/
theorem empty_game_update_stops :
    (∀ g : Game, g.entities = [] →
      updateEntities g.map g.entities 0 g.entities = some ([], []) ∧
      Game.update g = some (g, false)) ∧
    (∀ n, runLoop (n + 1) Game.new = some Game.new) := by
  constructor
  · intro g h
    obtain ⟨m, es⟩ := g
    dsimp only at h
    subst h
    exact ⟨rfl, rfl⟩
  · intro n
    unfold runLoop
    rw [show Game.update Game.new = some (Game.new, false) from rfl]

/-- Witness for C10 at `Game::new` itself. -/
theorem empty_game_update_stops_witness :
    updateEntities Game.new.map Game.new.entities 0 Game.new.entities = some ([], []) ∧
    Game.update Game.new = some (Game.new, false) :=
  empty_game_update_stops.1 Game.new rfl

/-- Folding a conditional push over a list is the corresponding
`filterMap`, prefixed by the accumulator (the shape of the Player arm's
`for_each` push loop). -/
theorem foldl_append_if_eq_filterMap {A B : Type} (c : A → Bool) (g : A → B) :
    ∀ (l : List A) (acc : List B),
      l.foldl (fun acc x => if c x then acc ++ [g x] else acc) acc
        = acc ++ l.filterMap (fun x => if c x then some (g x) else none) := by
  intro l
  induction l with
  | nil => intro acc; simp
  | cons x rest ih =>
    intro acc
    by_cases h : c x
    · simp [h, ih]
    · simp [h, ih]

/-- Claim C7: the decide phase is snapshot-isolated. The left side walks
the live entity vector, rewriting each entry in place as it goes (the
`iter_mut` traversal); the right side computes every decision from the
tick-start entity list and the fixed snapshot `entities0` alone. Their
equality states that the in-walk mutation of one entity's position never
changes what another entity's decision reads: the health and position each
decision observes for every other entity are those of the snapshot copied
at the start of the tick. -/
theorem updateEntities_reads_snapshot_only (map : Map) (entities0 : List Entity) :
    ∀ (es : List Entity) (i : Nat),
      updateEntities map entities0 i es
        = Option.map (fun l => (l.map Prod.fst, l.map Prod.snd))
            (sequenceOption (decisionsFrom map entities0 i es)) := by
  intro es
  induction es with
  | nil => intro i; rfl
  | cons e rest ih =>
    intro i
    unfold updateEntities decisionsFrom sequenceOption
    rw [ih (i + 1)]
    cases e.update i entities0 map with
    | none =>
      cases sequenceOption (decisionsFrom map entities0 (i + 1) rest) <;> rfl
    | some r =>
      obtain ⟨e1, effs⟩ := r
      cases sequenceOption (decisionsFrom map entities0 (i + 1) rest) <;> rfl

/-- Claim C5: the apply phase feeds `apply_side_effect` exactly the
concatenation of the per-entity side-effect lists, outer lists in
decision (ascending entity index) order, inner lists in emission order;
and a Player's emitted list is exactly one `Attack` (source = own id,
strength `0.25`) per other snapshot entity within `ATTACK_DISTANCE` of its
post-move position, in ascending snapshot-index order with self
excluded (`playerAttacksSpec`). -/
theorem side_effects_in_emission_order :
    (∀ (g : Game) (effss : List (List SideEffect)),
        g.applyAll effss = g.applyList effss.flatten) ∧
    (∀ (self : Entity) (my_id : Nat) (entities0 : List Entity) (map : Map),
        self.cls = EntityClass.Player →
        Entity.update self my_id entities0 map
          = some ({ self with pos :=
                      (if map.validate_move (vec2 (self.pos.x + 1 / 10) self.pos.y) then
                        vec2 (self.pos.x + 1 / 10) self.pos.y
                      else self.pos) },
                  playerAttacksSpec my_id
                    (if map.validate_move (vec2 (self.pos.x + 1 / 10) self.pos.y) then
                       vec2 (self.pos.x + 1 / 10) self.pos.y
                     else self.pos) entities0)) := by
  constructor
  · have happ : ∀ (l1 l2 : List SideEffect) (g : Game),
        g.applyList (l1 ++ l2)
          = match g.applyList l1 with
            | Option.none => none
            | some g1 => g1.applyList l2 := by
      intro l1
      induction l1 with
      | nil => intro l2 g; rfl
      | cons eff rest ih =>
        intro l2 g
        simp only [List.cons_append, Game.applyList]
        cases g.apply_side_effect eff with
        | none => rfl
        | some g1 => exact ih l2 g1
    intro g effss
    induction effss generalizing g with
    | nil => rfl
    | cons effs rest ih =>
      simp only [Game.applyAll, List.flatten_cons, happ effs rest.flatten g]
      cases g.applyList effs with
      | none => rfl
      | some g1 => exact ih g1
  · intro self my_id entities0 map h
    obtain ⟨p, hp, c⟩ := self
    dsimp only at h
    subst h
    simp only [Entity.update, Option.some.injEq, Prod.mk.injEq]
    refine ⟨trivial, ?_⟩
    rw [foldl_append_if_eq_filterMap, List.filterMap_filter]
    unfold playerAttacksSpec
    apply List.filterMap_congr
    intro x _
    by_cases h1 : x.1 = my_id
    · simp [h1]
    · by_cases h2 : distLt (if map.validate_move (vec2 (p.x + 1 / 10) p.y) then
          vec2 (p.x + 1 / 10) p.y else p) x.2.pos ATTACK_DISTANCE
      · simp [h1, h2]
      · simp [h1, h2]

/-- Witness for C5: the apply-order equality at the scenario's side
effects, and the Player emission characterization at the scenario's
entity 0. -/
theorem side_effects_in_emission_order_witness :
    Game.applyAll twoPlayerGame twoPlayerEffects
      = Game.applyList twoPlayerGame twoPlayerEffects.flatten ∧
    Entity.update { pos := vec2 0 0, health := 1, cls := EntityClass.Player } 0
        twoPlayerGame.entities (Map.new 1024)
      = some ({ pos := (if (Map.new 1024).validate_move (vec2 (0 + 1 / 10) 0) then
                          vec2 (0 + 1 / 10) 0
                        else vec2 0 0),
                health := 1, cls := EntityClass.Player },
              playerAttacksSpec 0
                (if (Map.new 1024).validate_move (vec2 (0 + 1 / 10) 0) then
                   vec2 (0 + 1 / 10) 0
                 else vec2 0 0) twoPlayerGame.entities) :=
  ⟨side_effects_in_emission_order.1 twoPlayerGame twoPlayerEffects,
   side_effects_in_emission_order.2 { pos := vec2 0 0, health := 1, cls := EntityClass.Player }
     0 twoPlayerGame.entities (Map.new 1024) rfl⟩

/-- Claim C9: in a game whose entities are all Players, every side effect
collected by the decide phase is an `Attack` — `apply_side_effect`
dispatches on the constructor, so its unimplemented (`todo!()`) `MapAttack`
arm is never reached during such a tick. -/
theorem all_player_side_effects_are_attacks :
    ∀ (map : Map) (entities0 : List Entity) (es : List Entity) (i : Nat)
      (res : List Entity × List (List SideEffect)),
      (∀ e ∈ es, e.cls = EntityClass.Player) →
      updateEntities map entities0 i es = some res →
      ∀ effs ∈ res.2, ∀ eff ∈ effs, eff.isAttack = true := by
  intro map entities0 es
  induction es with
  | nil =>
    intro i res hall h2 effs hmem
    simp only [updateEntities] at h2
    cases h2
    simp at hmem
  | cons e rest ih =>
    intro i res hall h2 effs hmem eff heff
    have hcls : e.cls = EntityClass.Player := hall e (List.mem_cons_self e rest)
    obtain ⟨p, hp, c⟩ := e
    dsimp only at hcls
    subst hcls
    simp only [updateEntities, Entity.update] at h2
    cases hrest : updateEntities map entities0 (i + 1) rest with
    | none =>
      rw [hrest] at h2
      exact absurd h2 (by simp)
    | some r2 =>
      rw [hrest] at h2
      obtain ⟨rest1, effss⟩ := r2
      simp only [Option.some.injEq] at h2
      subst h2
      simp only at hmem
      rcases List.mem_cons.mp hmem with h | h
      · subst h
        rw [foldl_append_if_eq_filterMap] at heff
        simp only [List.nil_append] at heff
        obtain ⟨a, -, ha⟩ := List.mem_filterMap.mp heff
        split at ha
        all_goals split at ha
        all_goals cases ha
        all_goals rfl
      · exact ih (i + 1) (rest1, effss) (fun e2 he => hall e2 (List.mem_cons_of_mem _ he))
          hrest effs h eff heff

/-- Witness for C9 at the all-Player scenario game: the first emitted
side effect of its first tick is an `Attack`. -/
theorem all_player_side_effects_are_attacks_witness :
    SideEffect.isAttack (SideEffect.Attack 0 1 (1 / 4)) = true :=
  all_player_side_effects_are_attacks twoPlayerGame.map twoPlayerGame.entities
    twoPlayerGame.entities 0 (twoPlayerPostMove, twoPlayerEffects)
    (by
      intro e he
      simp only [twoPlayerGame, List.mem_cons, List.not_mem_nil, or_false] at he
      rcases he with rfl | rfl <;> rfl)
    two_player_decide
    [SideEffect.Attack 0 1 (1 / 4)] (List.mem_cons_self _ _)
    (SideEffect.Attack 0 1 (1 / 4)) (List.mem_cons_self _ _)

/-- Claim C8: distance is symmetric, and the distance from a vector to
itself is zero (given that the square-root function sends 0 to 0, as the
`f32` square root does). -/
theorem distance_symm_and_self_zero (sqrt : ℚ → ℚ) (a b : Vec2) :
    Vec2.distance sqrt a b = Vec2.distance sqrt b a ∧
    (sqrt 0 = 0 → Vec2.distance sqrt a a = 0) := by
  constructor
  · have h : (a.sub b).lengthSq = (b.sub a).lengthSq := by
      simp only [Vec2.sub, Vec2.lengthSq]
      ring
    unfold Vec2.distance Vec2.length
    rw [h]
  · intro h0
    have h : (a.sub a).lengthSq = 0 := by
      simp only [Vec2.sub, Vec2.lengthSq]
      ring
    unfold Vec2.distance Vec2.length
    rw [h, h0]

/-- Witness for C8 at concrete inputs, with the identity as the square-root
argument (it sends 0 to 0). -/
theorem distance_symm_and_self_zero_witness :
    Vec2.distance (fun q => q) (vec2 1 2) (vec2 3 4) =
      Vec2.distance (fun q => q) (vec2 3 4) (vec2 1 2) ∧
    Vec2.distance (fun q => q) (vec2 1 2) (vec2 1 2) = 0 :=
  ⟨(distance_symm_and_self_zero (fun q => q) (vec2 1 2) (vec2 3 4)).1,
   (distance_symm_and_self_zero (fun q => q) (vec2 1 2) (vec2 3 4)).2 rfl⟩

end RL
